import Mathlib

/-!
# Verification of the KLAUS invoice-extraction core

Shallow embedding of `src/ml-service/ml_service.py` (`extract_with_patterns`)
and `src/ml-service/train_model.py` (`analyze_corrections`) in Lean 4.

The Python code works through `re` patterns compiled with `re.IGNORECASE`.
We embed a small backtracking regular-expression engine whose priority
order (leftmost start, alternatives in order, greedy repetition) matches
CPython's `re` for the pattern features actually used by the source
(literals, character classes, `*`, `+`, `?`, bounded repetition,
alternation, one level of capture groups; no backreferences, no
lookaround, and `^`/`$` never occur, so `re.MULTILINE` is inert).
Case-insensitivity is modelled by lowercasing both the scanned character
and the (lowercase) pattern literal; `str.lower` is modelled for ASCII
plus the Czech accented capitals, which covers every character the
source's vocabulary and the claims' inputs use.
-/

namespace Klaus

/-- Python `str.lower` restricted to ASCII and Czech accented letters. -/
def czLower (c : Char) : Char :=
  if 65 ≤ c.toNat ∧ c.toNat ≤ 90 then Char.ofNat (c.toNat + 32)
  else if c = 'Á' then 'á' else if c = 'Č' then 'č' else if c = 'Ď' then 'ď'
  else if c = 'É' then 'é' else if c = 'Ě' then 'ě' else if c = 'Í' then 'í'
  else if c = 'Ň' then 'ň' else if c = 'Ó' then 'ó' else if c = 'Ř' then 'ř'
  else if c = 'Š' then 'š' else if c = 'Ť' then 'ť' else if c = 'Ú' then 'ú'
  else if c = 'Ů' then 'ů' else if c = 'Ý' then 'ý' else if c = 'Ž' then 'ž'
  else c

/-- Python's `\s` / `str.strip` whitespace set (ASCII part:
space, tab, newline, carriage return, vertical tab, form feed). -/
def isWs (c : Char) : Bool :=
  c = ' ' || c = '\t' || c = '\n' || c = '\r' || c = '\x0b' || c = '\x0c'

/-- Python's `\w` word characters: ASCII alphanumerics, underscore, and the
Czech accented letters (the Unicode letters our inputs can contain). -/
def isWordChar (c : Char) : Bool :=
  c.isAlphanum || c = '_' ||
    ("áčďéěíňóřšťúůýžÁČĎÉĚÍŇÓŘŠŤÚŮÝŽ".toList.contains c)

/-- `str.lower` over a character list. -/
def pyLower (l : List Char) : List Char := l.map czLower

/-- Drop trailing whitespace (helper for `pyStrip`). -/
def dropTrailWs (l : List Char) : List Char :=
  (l.reverse.dropWhile isWs).reverse

/-- Python `str.strip()`. -/
def pyStrip (l : List Char) : List Char :=
  dropTrailWs (l.dropWhile isWs)

/-- `needle.isPrefixOf hay` with Bool Char equality. -/
def isPrefixL : List Char → List Char → Bool
  | [], _ => true
  | _ :: _, [] => false
  | a :: as, b :: bs => a = b && isPrefixL as bs

/-- Python's `needle in hay` substring test. -/
def containsSubL (needle : List Char) : List Char → Bool
  | [] => needle.isEmpty
  | hay@(_ :: rest) => isPrefixL needle hay || containsSubL needle rest

/-- Python `hay.find(needle)`: index of the first occurrence. -/
def findSubIdx (needle : List Char) : List Char → Option Nat
  | [] => if needle.isEmpty then some 0 else none
  | hay@(_ :: rest) =>
    if isPrefixL needle hay then some 0
    else (findSubIdx needle rest).map (· + 1)

/-- Python slice `l[a:b]` (for `0 ≤ a ≤ b`; clamping is implicit). -/
def sliceL (l : List Char) (a b : Nat) : List Char :=
  (l.drop a).take (b - a)

/-- Non-overlapping leftmost occurrences of a literal pattern, as
`(start, stop)` index pairs: models `re.finditer` applied to an escaped
literal (as `train_model.py` line 70 builds from the corrected total).
The fuel argument bounds the scan by the haystack length. -/
def findOccsGo (needle : List Char) : Nat → List Char → Nat → List (Nat × Nat)
  | 0, _, _ => []
  | _ + 1, [], _ => []
  | fuel + 1, hay@(_ :: rest), pos =>
    if needle ≠ [] ∧ isPrefixL needle hay then
      (pos, pos + needle.length) ::
        findOccsGo needle fuel (hay.drop needle.length) (pos + needle.length)
    else
      findOccsGo needle fuel rest (pos + 1)

def findOccs (needle hay : List Char) : List (Nat × Nat) :=
  findOccsGo needle (hay.length + 1) hay 0

/-! ## Regular-expression engine -/

/-- The character classes occurring in the source's patterns.  Membership
is tested on the lowercased character (all patterns are compiled with
`re.IGNORECASE`). -/
inductive CC where
  | digit        -- `[0-9]` / `\d`
  | wsp          -- `\s`
  | digitWs      -- `[0-9\s]`
  | digitWsComma -- `[0-9\s,]`
  | dotComma     -- `[.,]`
  | colonWs      -- `[:\s]`
  | alnumDash    -- `[a-z0-9\-]` (with IGNORECASE)
  | notNL        -- `[^\n]`
  | notRParen    -- `[^)]`
  | dateSep      -- `[\/\-\.]`
  deriving DecidableEq

def CC.mem : CC → Char → Bool
  | .digit, c => c.isDigit
  | .wsp, c => isWs c
  | .digitWs, c => c.isDigit || isWs c
  | .digitWsComma, c => c.isDigit || isWs c || c = ','
  | .dotComma, c => c = '.' || c = ','
  | .colonWs, c => c = ':' || isWs c
  | .alnumDash, c => c.isDigit || ('a' ≤ c ∧ c ≤ 'z' : Bool) || c = '-'
  | .notNL, c => c ≠ '\n'
  | .notRParen, c => c ≠ ')'
  | .dateSep, c => c = '/' || c = '-' || c = '.'

/-- Regex abstract syntax (the fragment the source uses). -/
inductive RE where
  | eps
  | lit (c : Char)
  | cls (k : CC)
  | seq (a b : RE)
  | alt (a b : RE)
  | star (a : RE)
  | grp (i : Nat) (a : RE)
  deriving DecidableEq

/-- Captures: `(group index, start, stop)` offsets into the text. -/
abbrev Caps := List (Nat × Nat × Nat)

/-- Greedy repetition of one step function: all reachable end positions,
longest continuation first, requiring strict progress per iteration
(CPython likewise stops repeating on an empty submatch).  `fuel` bounds
the number of iterations; callers pass the remaining text length, which
is always sufficient because each iteration consumes at least one
character. -/
def starRun (f : Nat → List (Nat × Caps)) : Nat → Nat → List (Nat × Caps)
  | 0, p => [(p, [])]
  | fuel + 1, p =>
    (((f p).filter (fun r => p < r.1)).flatMap fun r =>
      (starRun f fuel r.1).map fun s => (s.1, r.2 ++ s.2)) ++ [(p, [])]

/-- The backtracking matcher: all end positions reachable from `p`, in
CPython's backtracking priority order (first element = the match the
engine reports). -/
def mrun (t : List Char) : RE → Nat → List (Nat × Caps)
  | .eps, p => [(p, [])]
  | .lit c, p =>
    match t.get? p with
    | some d => if czLower d = c then [(p + 1, [])] else []
    | none => []
  | .cls k, p =>
    match t.get? p with
    | some d => if k.mem (czLower d) then [(p + 1, [])] else []
    | none => []
  | .seq a b, p =>
    (mrun t a p).flatMap fun r =>
      (mrun t b r.1).map fun s => (s.1, r.2 ++ s.2)
  | .alt a b, p => mrun t a p ++ mrun t b p
  | .grp i a, p => (mrun t a p).map fun r => (r.1, (i, p, r.1) :: r.2)
  | .star a, p => starRun (fun q => mrun t a q) (t.length + 1 - p) p

/-- A match: start, end, captures. -/
structure RMatch where
  s : Nat
  e : Nat
  caps : Caps
  deriving DecidableEq

/-- `re.search` starting at offset `start`: leftmost match position, then
the engine's first alternative there. -/
def reSearchFrom (t : List Char) (r : RE) (start : Nat) : Option RMatch :=
  (List.range (t.length + 1 - start)).findSome? fun i =>
    (mrun t r (start + i)).head?.map fun res =>
      ⟨start + i, res.1, res.2⟩

def reSearch (t : List Char) (r : RE) : Option RMatch :=
  reSearchFrom t r 0

/-- `re.finditer`: successive non-overlapping leftmost matches.  After a
match the scan resumes at its end (advancing one past the start for an
empty match, as CPython does). -/
def findIterGo (t : List Char) (r : RE) : Nat → Nat → List RMatch
  | _, 0 => []
  | start, fuel + 1 =>
    match reSearchFrom t r start with
    | none => []
    | some m =>
      m :: findIterGo t r (if m.s < m.e then m.e else m.s + 1) fuel

def reFindIter (t : List Char) (r : RE) : List RMatch :=
  findIterGo t r 0 (t.length + 1)

/-- `match.group(0)` as a character list. -/
def group0 (t : List Char) (m : RMatch) : List Char :=
  sliceL t m.s m.e

/-- `match.group(i)` (for `i > 0`) as a character list; `[]` when the
group did not participate (never the case for the patterns used). -/
def groupN (t : List Char) (m : RMatch) (i : Nat) : List Char :=
  match m.caps.find? (fun c => c.1 = i) with
  | some c => sliceL t c.2.1 c.2.2
  | none => []

/-! ### Pattern-building helpers -/

/-- A regex that never matches (empty alternation base). -/
def reFail : RE := .alt (.seq (.lit '\n') (.cls .notNL)) (.seq (.lit 'a') (.lit '\n'))

def rstr (s : String) : RE := (s.toList.map RE.lit).foldr RE.seq .eps

def rplus (r : RE) : RE := .seq r (.star r)

def ropt (r : RE) : RE := .alt r .eps

def altList (rs : List RE) : RE :=
  match rs with
  | [] => reFail
  | [r] => r
  | r :: rest => .alt r (altList rest)

def cat (rs : List RE) : RE := rs.foldr RE.seq .eps

/-- Exactly `n` copies (for bounded repetition). -/
def repN (r : RE) : Nat → RE
  | 0 => .eps
  | n + 1 => .seq r (repN r n)

/-- Up to `n` copies, greedy, right-nested for linear backtracking. -/
def repOpt (r : RE) : Nat → RE
  | 0 => .eps
  | n + 1 => .alt (.seq r (repOpt r n)) .eps

/-- `r{m,n}`. -/
def repRange (r : RE) (m n : Nat) : RE := .seq (repN r m) (repOpt r (n - m))

/-! ## Amount normalization (ml_service.py lines 86–96)

`amount_str = match.group(1).strip()`;
`amount_str = amount_str.replace(' ', '').replace(',', '.')`;
split on `'.'`; if more than two parts, keep only the last dot. -/

/-- `str.replace(' ', '')`: removes space characters only (not all
whitespace — the source never removes interior tabs or newlines). -/
def removeSpaces (l : List Char) : List Char := l.filter (· ≠ ' ')

/-- `str.replace(',', '.')`. -/
def commaToDot (l : List Char) : List Char :=
  l.map fun c => if c = ',' then '.' else c

/-- Python `str.split('.')` (keeps empty parts). -/
def splitDots : List Char → List (List Char)
  | [] => [[]]
  | c :: r =>
    if c = '.' then [] :: splitDots r
    else
      match splitDots r with
      | h :: t => (c :: h) :: t
      | [] => [[c]]

/-- `''.join(parts[:-1]) + '.' + parts[-1]`. -/
def joinKeepLastDot (ps : List (List Char)) : List Char :=
  ps.dropLast.flatten ++ '.' :: (ps.getLast?.getD [])

/-- Lines 86–93: the amount normalizer applied to a captured group. -/
def normalizeAmount (g1 : List Char) : List Char :=
  let a := commaToDot (removeSpaces (pyStrip g1))
  let parts := splitDots a
  if parts.length > 2 then joinKeepLastDot parts else a

/-- Lines 163 / 189: rate normalization — strip, despace, comma→dot,
with *no* multi-dot collapse. -/
def simpleNorm (l : List Char) : List Char :=
  commaToDot (removeSpaces (pyStrip l))

/-- Decimal digit string to `ℕ` (models `int()` on a `[0-9]+` group). -/
def natOfDigits (l : List Char) : Nat :=
  l.foldl (fun n c => n * 10 + (c.toNat - 48)) 0

/-- Python `float()` restricted to the strings that can reach it here:
after the replacements the argument consists of digits, dots and possibly
leftover interior whitespace.  `float` strips outer whitespace and then
accepts `digits`, `digits '.' digits`, `'.' digits` or `digits '.'`
(at least one digit, at most one dot); everything else raises
`ValueError`, modelled as `none`.  The value is exact (`ℚ`): for
`A.B` with `k` fractional digits it is `(A·10^k + B)/10^k`.  Every
comparison the source performs on these floats is against thresholds far
from the representation error, so exact arithmetic is faithful. -/
def parseFloat (l : List Char) : Option ℚ :=
  let s := pyStrip l
  match splitDots s with
  | [a] =>
    if a ≠ [] ∧ a.all Char.isDigit then some (natOfDigits a) else none
  | [a, b] =>
    if (a ≠ [] ∨ b ≠ []) ∧ a.all Char.isDigit ∧ b.all Char.isDigit then
      some (mkRat (natOfDigits a * 10 ^ b.length + natOfDigits b) (10 ^ b.length))
    else none
  | _ => none

/-! ## The extraction patterns (ml_service.py) -/

/-- `číslo\s*:?\s*([0-9]+)` -/
def pN1 : RE := cat [rstr "číslo", .star (.cls .wsp), ropt (.lit ':'),
  .star (.cls .wsp), .grp 1 (rplus (.cls .digit))]

/-- `invoice\s*(?:number|no|#)?\s*:?\s*([a-z0-9\-]+)` -/
def pN2 : RE := cat [rstr "invoice", .star (.cls .wsp),
  ropt (altList [rstr "number", rstr "no", rstr "#"]), .star (.cls .wsp),
  ropt (.lit ':'), .star (.cls .wsp), .grp 1 (rplus (.cls .alnumDash))]

/-- `inv\s*(?:number|no|#)?\s*:?\s*([a-z0-9\-]+)` -/
def pN3 : RE := cat [rstr "inv", .star (.cls .wsp),
  ropt (altList [rstr "number", rstr "no", rstr "#"]), .star (.cls .wsp),
  ropt (.lit ':'), .star (.cls .wsp), .grp 1 (rplus (.cls .alnumDash))]

/-- `#\s*([a-z0-9\-]+)` -/
def pN4 : RE := cat [.lit '#', .star (.cls .wsp), .grp 1 (rplus (.cls .alnumDash))]

def invoiceNumPatterns : List RE := [pN1, pN2, pN3, pN4]

/-- `(?:project|description|service|item|předmět|název)\s*:?\s*([^\n]{5,100})` -/
def pP1 : RE := cat [
  altList [rstr "project", rstr "description", rstr "service", rstr "item",
    rstr "předmět", rstr "název"],
  .star (.cls .wsp), ropt (.lit ':'), .star (.cls .wsp),
  .grp 1 (repRange (.cls .notNL) 5 100)]

/-- `účel\s*:?\s*([^\n]{5,100})` -/
def pP2 : RE := cat [rstr "účel", .star (.cls .wsp), ropt (.lit ':'),
  .star (.cls .wsp), .grp 1 (repRange (.cls .notNL) 5 100)]

def projectPatterns : List RE := [pP1, pP2]

/-- Amount capture `([0-9\s]+[.,][0-9]+)` (patterns 1–4). -/
def amtGrpA : RE :=
  .grp 1 (cat [rplus (.cls .digitWs), .cls .dotComma, rplus (.cls .digit)])

/-- Amount capture `([0-9\s,]+[.,]?[0-9]+)` (patterns 5–7). -/
def amtGrpB : RE :=
  .grp 1 (cat [rplus (.cls .digitWsComma), ropt (.cls .dotComma), rplus (.cls .digit)])

/-- `bez\s+dph\s*[:\s]*([0-9\s]+[.,][0-9]+)` -/
def pA1 : RE := cat [rstr "bez", rplus (.cls .wsp), rstr "dph",
  .star (.cls .wsp), .star (.cls .colonWs), amtGrpA]

/-- `součet\s*[:\s]*([0-9\s]+[.,][0-9]+)` -/
def pA2 : RE := cat [rstr "součet", .star (.cls .wsp), .star (.cls .colonWs), amtGrpA]

/-- `základ\s+dph\s*[:\s]*([0-9\s]+[.,][0-9]+)` -/
def pA3 : RE := cat [rstr "základ", rplus (.cls .wsp), rstr "dph",
  .star (.cls .wsp), .star (.cls .colonWs), amtGrpA]

/-- `celkem\s+k\s+úhradě\s*\([^)]*\)\s*([0-9\s]+[.,][0-9]+)` -/
def pA4 : RE := cat [rstr "celkem", rplus (.cls .wsp), rstr "k",
  rplus (.cls .wsp), rstr "úhradě", .star (.cls .wsp), .lit '(',
  .star (.cls .notRParen), .lit ')', .star (.cls .wsp), amtGrpA]

/-- `celkem\s+k\s+úhradě\s*:?\s*([0-9\s,]+[.,]?[0-9]+)` -/
def pA5 : RE := cat [rstr "celkem", rplus (.cls .wsp), rstr "k",
  rplus (.cls .wsp), rstr "úhradě", .star (.cls .wsp), ropt (.lit ':'),
  .star (.cls .wsp), amtGrpB]

/-- `(?:celkem|celková\s+částka|suma|částka)\s*:?\s*([0-9\s,]+[.,]?[0-9]+)\s*(?:kč|czk)` -/
def pA6 : RE := cat [
  altList [rstr "celkem", cat [rstr "celková", rplus (.cls .wsp), rstr "částka"],
    rstr "suma", rstr "částka"],
  .star (.cls .wsp), ropt (.lit ':'), .star (.cls .wsp), amtGrpB,
  .star (.cls .wsp), altList [rstr "kč", rstr "czk"]]

/-- `(?:total|amount|sum|subtotal|due|invoice\s+total)\s*:?\s*([0-9\s,]+[.,]?[0-9]+)\s*(?:kč|czk|eur|€)` -/
def pA7 : RE := cat [
  altList [rstr "total", rstr "amount", rstr "sum", rstr "subtotal", rstr "due",
    cat [rstr "invoice", rplus (.cls .wsp), rstr "total"]],
  .star (.cls .wsp), ropt (.lit ':'), .star (.cls .wsp), amtGrpB,
  .star (.cls .wsp), altList [rstr "kč", rstr "czk", rstr "eur", rstr "€"]]

def amountPatterns : List RE := [pA1, pA2, pA3, pA4, pA5, pA6, pA7]

/-- `\d{1,2}\.\d{1,2}\.\d{2,4}` -/
def dateDots : RE := cat [repRange (.cls .digit) 1 2, .lit '.',
  repRange (.cls .digit) 1 2, .lit '.', repRange (.cls .digit) 2 4]

/-- `\d{1,2}[\/\-\.]\d{1,2}[\/\-\.]\d{2,4}` -/
def dateSeps : RE := cat [repRange (.cls .digit) 1 2, .cls .dateSep,
  repRange (.cls .digit) 1 2, .cls .dateSep, repRange (.cls .digit) 2 4]

/-- `datum\s+vystavení\s*:?\s*(\d{1,2}\.\d{1,2}\.\d{2,4})` -/
def pD1 : RE := cat [rstr "datum", rplus (.cls .wsp), rstr "vystavení",
  .star (.cls .wsp), ropt (.lit ':'), .star (.cls .wsp), .grp 1 dateDots]

/-- `(?:invoice\s*date|date\s*of\s*invoice|issued)\s*:?\s*(\d{1,2}[\/\-\.]\d{1,2}[\/\-\.]\d{2,4})` -/
def pD2 : RE := cat [
  altList [cat [rstr "invoice", .star (.cls .wsp), rstr "date"],
    cat [rstr "date", .star (.cls .wsp), rstr "of", .star (.cls .wsp), rstr "invoice"],
    rstr "issued"],
  .star (.cls .wsp), ropt (.lit ':'), .star (.cls .wsp), .grp 1 dateSeps]

/-- `datum\s*:?\s*(\d{1,2}[\/\-\.]\d{1,2}[\/\-\.]\d{2,4})` -/
def pD3 : RE := cat [rstr "datum", .star (.cls .wsp), ropt (.lit ':'),
  .star (.cls .wsp), .grp 1 dateSeps]

def invoiceDatePatterns : List RE := [pD1, pD2, pD3]

/-- `datum\s+splatnosti\s*:?\s*(\d{1,2}\.\d{1,2}\.\d{2,4})` -/
def pDD1 : RE := cat [rstr "datum", rplus (.cls .wsp), rstr "splatnosti",
  .star (.cls .wsp), ropt (.lit ':'), .star (.cls .wsp), .grp 1 dateDots]

/-- `(?:due\s*date|payment\s*due|pay\s*by|splatnost)\s*:?\s*(\d{1,2}[\/\-\.]\d{1,2}[\/\-\.]\d{2,4})` -/
def pDD2 : RE := cat [
  altList [cat [rstr "due", .star (.cls .wsp), rstr "date"],
    cat [rstr "payment", .star (.cls .wsp), rstr "due"],
    cat [rstr "pay", .star (.cls .wsp), rstr "by"], rstr "splatnost"],
  .star (.cls .wsp), ropt (.lit ':'), .star (.cls .wsp), .grp 1 dateSeps]

def dueDatePatterns : List RE := [pDD1, pDD2]

/-- `MD\s+([0-9]+)\s+([0-9\s,]+[.,][0-9]+)` -/
def pMD : RE := cat [rstr "md", rplus (.cls .wsp), .grp 1 (rplus (.cls .digit)),
  rplus (.cls .wsp),
  .grp 2 (cat [rplus (.cls .digitWsComma), .cls .dotComma, rplus (.cls .digit)])]

/-- `počet\s+mj\s*:?\s*([0-9]+)` -/
def pPocet : RE := cat [rstr "počet", rplus (.cls .wsp), rstr "mj",
  .star (.cls .wsp), ropt (.lit ':'), .star (.cls .wsp), .grp 1 (rplus (.cls .digit))]

/-- `cena\s+mj\s*:?\s*([0-9\s,]+[.,][0-9]+)` -/
def pCena : RE := cat [rstr "cena", rplus (.cls .wsp), rstr "mj",
  .star (.cls .wsp), ropt (.lit ':'), .star (.cls .wsp),
  .grp 1 (cat [rplus (.cls .digitWsComma), .cls .dotComma, rplus (.cls .digit)])]

/-- `(?:s\.r\.o\.|s\.r\.o|a\.s\.|spol\.|spol|Ltd\.|Inc\.|LLC|GmbH|Corp\.)` -/
def sfx10 : RE := altList [rstr "s.r.o.", rstr "s.r.o", rstr "a.s.",
  rstr "spol.", rstr "spol", rstr "ltd.", rstr "inc.", rstr "llc",
  rstr "gmbh", rstr "corp."]

/-- `(?:s\.r\.o\.|s\.r\.o|a\.s\.|spol\.)` -/
def sfx4 : RE := altList [rstr "s.r.o.", rstr "s.r.o", rstr "a.s.", rstr "spol."]

/-- `(?:Ltd\.|Inc\.|LLC|GmbH|Corp\.)` -/
def sfxEn : RE := altList [rstr "ltd.", rstr "inc.", rstr "llc", rstr "gmbh", rstr "corp."]

/-- `[^\n]*\n` — a skipped line. -/
def skipLine : RE := .seq (.star (.cls .notNL)) (.lit '\n')

/-- `odběratel\s*:?\s*` — the label part of the client patterns. -/
def odbLabel : RE := cat [rstr "odběratel", .star (.cls .wsp), ropt (.lit ':'),
  .star (.cls .wsp)]

/-- `odběratel\s*:?\s*[^\n]*\n[^\n]*\n[^\n]*\n([^\n]+(?:…10 suffixes…))` -/
def pC1 : RE := cat [odbLabel, skipLine, skipLine, skipLine,
  .grp 1 (.seq (rplus (.cls .notNL)) sfx10)]

/-- `odběratel\s*:?\s*[^\n]*\n[^\n]*\n([^\n]+(?:s\.r\.o\.|s\.r\.o|a\.s\.|spol\.))` -/
def pC2 : RE := cat [odbLabel, skipLine, skipLine,
  .grp 1 (.seq (rplus (.cls .notNL)) sfx4)]

/-- `odběratel\s*:?\s*[^\n]*\n([^\n]+(?:s\.r\.o\.|s\.r\.o|a\.s\.|spol\.))` -/
def pC3 : RE := cat [odbLabel, skipLine, .grp 1 (.seq (rplus (.cls .notNL)) sfx4)]

/-- `odběratel\s*:?\s*([^\n]+(?:s\.r\.o\.|s\.r\.o|a\.s\.|spol\.))` -/
def pC4 : RE := cat [odbLabel, .grp 1 (.seq (rplus (.cls .notNL)) sfx4)]

/-- `buyer\s*:?\s*([^\n]+(?:Ltd\.|Inc\.|LLC|GmbH|Corp\.))` -/
def pC5 : RE := cat [rstr "buyer", .star (.cls .wsp), ropt (.lit ':'),
  .star (.cls .wsp), .grp 1 (.seq (rplus (.cls .notNL)) sfxEn)]

/-- `client\s*:?\s*([^\n]+)` -/
def pC6 : RE := cat [rstr "client", .star (.cls .wsp), ropt (.lit ':'),
  .star (.cls .wsp), .grp 1 (rplus (.cls .notNL))]

def clientPatterns : List RE := [pC1, pC2, pC3, pC4, pC5, pC6]

/-! ## Field extraction (ml_service.py `extract_with_patterns`) -/

/-- Lines 48–52: first pattern with a match wins; `match.group(1).strip()`. -/
def extractInvoiceNumber (t : List Char) : String :=
  match invoiceNumPatterns.findSome? (fun r => reSearch t r) with
  | some m => String.mk (pyStrip (groupN t m 1))
  | none => ""

/-- Lines 59–65: first pattern whose stripped capture has length strictly
between 5 and 100 wins; a match failing the length check moves on to the
next pattern. -/
def extractProjectNameGo (t : List Char) : List RE → String
  | [] => ""
  | r :: rs =>
    match reSearch t r with
    | some m =>
      let cand := pyStrip (groupN t m 1)
      if 5 < cand.length ∧ cand.length < 100 then String.mk cand
      else extractProjectNameGo t rs
    | none => extractProjectNameGo t rs

def extractProjectName (t : List Char) : String :=
  extractProjectNameGo t projectPatterns

/-- A `CandidateAmount` (lines 98–103). -/
structure Cand where
  amount : String
  value : ℚ
  currency : String
  matched : String
  deriving DecidableEq

/-- `'eur' in match.group(0).lower() or '€' in match.group(0)` (line 101). -/
def eurInMatched (g0 : List Char) : Bool :=
  containsSubL "eur".toList (pyLower g0) || g0.contains '€'

/-- `'eur' in match.group(0).lower()` (lines 107, 111 — note: no `'€'`
test on this path). -/
def eurLowerOnly (g0 : List Char) : Bool :=
  containsSubL "eur".toList (pyLower g0)

/-- `'bez' in match.group(0).lower() and 'dph' in match.group(0).lower()`. -/
def hasBezDph (g0 : List Char) : Bool :=
  containsSubL "bez".toList (pyLower g0) && containsSubL "dph".toList (pyLower g0)

/-- `'součet' in match.group(0).lower() or 'základ' in match.group(0).lower()`. -/
def hasSoucetZaklad (g0 : List Char) : Bool :=
  containsSubL "součet".toList (pyLower g0) || containsSubL "základ".toList (pyLower g0)

/-- Lines 85–103: normalize the captured amount, parse it, and keep it as
a candidate only when its value lies strictly between 100 and 100000000
(a `ValueError` from `float` silently discards the match). -/
def toCand (t : List Char) (m : RMatch) : Option Cand :=
  let astr := normalizeAmount (groupN t m 1)
  match parseFloat astr with
  | none => none
  | some v =>
    if 100 < v ∧ v < 100000000 then
      some ⟨String.mk astr, v,
        if eurInMatched (group0 t m) then "EUR" else "CZK",
        String.mk (group0 t m)⟩
    else none

/-- The loop state of lines 81–121: `all_amounts`, `extracted['invoicedTotal']`,
`extracted['currency']`. -/
structure AmtSt where
  all : List Cand
  total : String
  curr : String
  deriving DecidableEq

/-- Lines 84–114, the inner `for match in matches` loop of one pattern:
each in-range candidate is appended to `all_amounts`; the first candidate
whose matched text carries a `bez…dph` or `součet`/`základ` keyword sets
the total and currency and `break`s out of this pattern's matches (the
outer pattern loop continues regardless). -/
def procMatches (t : List Char) : List RMatch → AmtSt → AmtSt
  | [], st => st
  | m :: ms, st =>
    match toCand t m with
    | none => procMatches t ms st
    | some c =>
      let st' : AmtSt := ⟨st.all ++ [c], st.total, st.curr⟩
      if hasBezDph (String.toList c.matched) then
        ⟨st'.all, c.amount, if eurLowerOnly (String.toList c.matched) then "EUR" else "CZK"⟩
      else if hasSoucetZaklad (String.toList c.matched) then
        ⟨st'.all, c.amount, if eurLowerOnly (String.toList c.matched) then "EUR" else "CZK"⟩
      else procMatches t ms st'

/-- The initial `extracted` state: `invoicedTotal = ''`, `currency = 'CZK'`. -/
def amtInit : AmtSt := ⟨[], "", "CZK"⟩

/-- Lines 82–114: the outer loop over the seven amount patterns. -/
def amtLoop (t : List Char) : AmtSt :=
  amountPatterns.foldl (fun st r => procMatches t (reFindIter t r) st) amtInit

/-- Stable descending insertion by numeric value: an element is placed
before the first element whose value is `≤` its own, so earlier elements
precede later ones on ties — exactly the order of Python's stable
`list.sort(key=…, reverse=True)`. -/
def insertDesc (c : Cand) : List Cand → List Cand
  | [] => [c]
  | d :: ds => if d.value ≤ c.value then c :: d :: ds else d :: insertDesc c ds

/-- `all_amounts.sort(key=lambda x: x['value'], reverse=True)` (stable). -/
def sortDesc (l : List Cand) : List Cand := l.foldr insertDesc []

/-- Lines 116–121: if no keyword set the total and candidates exist, the
head of the descending sort (the largest value, first on ties) supplies
total and currency. -/
def extractAmounts (t : List Char) : String × String :=
  let st := amtLoop t
  if st.total = "" then
    match sortDesc st.all with
    | [] => (st.total, st.curr)
    | c :: _ => (c.amount, c.currency)
  else (st.total, st.curr)

/-- Lines 130–134 / 141–145: first date pattern with a match; the capture
is kept verbatim. -/
def extractFirstGroup (t : List Char) (ps : List RE) : String :=
  match ps.findSome? (fun r => reSearch t r) with
  | some m => String.mk (groupN t m 1)
  | none => ""

/-- Lines 152–168: scan all `MD <count> <rate>` line items.  A count is
collected when strictly between 0 and 1000; the rate (normalized without
dot-collapse) is collected when it parses and lies strictly between 100
and 100000.  A rate that fails to parse skips only the rate (the count
was already appended), mirroring the `try`/`except` placement. -/
def mdScan (t : List Char) : List Nat × List String :=
  (reFindIter t pMD).foldl
    (fun acc m =>
      let c := natOfDigits (groupN t m 1)
      let counts := if 0 < c ∧ c < 1000 then acc.1 ++ [c] else acc.1
      let rateStr := simpleNorm (groupN t m 2)
      match parseFloat rateStr with
      | none => (counts, acc.2)
      | some r =>
        if 100 < r ∧ r < 100000 then (counts, acc.2 ++ [String.mk rateStr])
        else (counts, acc.2))
    ([], [])

/-- Lines 170–195: sum the collected counts (`str(total_mds)`), take the
first collected rate, then the `Počet MJ:` fallback (no range check) and
the `Cena MJ:` fallback (range-checked). -/
def extractMDs (t : List Char) : String × String :=
  let sc := mdScan t
  let n0 := if sc.1 ≠ [] then toString sc.1.sum else ""
  let r0 := match sc.2 with | [] => "" | r :: _ => r
  let n1 :=
    if n0 = "" then
      match reSearch t pPocet with
      | some m => String.mk (groupN t m 1)
      | none => ""
    else n0
  let r1 :=
    if r0 = "" then
      match reSearch t pCena with
      | some m =>
        let rs := simpleNorm (groupN t m 1)
        match parseFloat rs with
        | some r => if 100 < r ∧ r < 100000 then String.mk rs else ""
        | none => ""
      | none => ""
    else r0
  (n1, r1)

/-- Length of a `\s+IČO:\s*\d+` match starting at the head of `l`
(case-sensitive: `re.sub` on line 214 passes no flags). -/
def icoAt (l : List Char) : Option Nat :=
  let w := (l.takeWhile isWs).length
  if w = 0 then none
  else
    let r1 := l.drop w
    if isPrefixL "IČO:".toList r1 then
      let r2 := r1.drop 4
      let w2 := (r2.takeWhile isWs).length
      let r3 := r2.drop w2
      let d := (r3.takeWhile Char.isDigit).length
      if d = 0 then none else some (w + 4 + w2 + d)
    else none

/-- `re.sub(r'\s+IČO:\s*\d+', '', client_name)`: drop every
non-overlapping leftmost occurrence. -/
def removeIcoGo : Nat → List Char → List Char
  | 0, l => l
  | _ + 1, [] => []
  | fuel + 1, l@(c :: rest) =>
    match icoAt l with
    | some n => removeIcoGo fuel (l.drop n)
    | none => c :: removeIcoGo fuel rest

def removeIco (l : List Char) : List Char := removeIcoGo l.length l

/-- `re.sub(r'^\s*[^\w]*', '', …)`: `\s` is a subset of `[^\w]`, so this
drops the maximal leading run of non-word characters. -/
def dropLeadingNonWord (l : List Char) : List Char :=
  l.dropWhile (fun c => !isWordChar c)

/-- Lines 209–218: first client pattern whose cleaned capture has length
strictly between 3 and 200 wins. -/
def extractClientGo (t : List Char) : List RE → String
  | [] => ""
  | r :: rs =>
    match reSearch t r with
    | some m =>
      let n1 := pyStrip (groupN t m 1)
      let n2 := pyStrip (removeIco n1)
      let n3 := pyStrip (dropLeadingNonWord n2)
      if 3 < n3.length ∧ n3.length < 200 then String.mk n3
      else extractClientGo t rs
    | none => extractClientGo t rs

def extractClient (t : List Char) : String :=
  extractClientGo t clientPatterns

/-- The `extracted` record (lines 26–37).  `exchangeRate` is initialized
to `''` and never assigned. -/
structure ExtractedInvoice where
  projectName : String
  invoicedTotal : String
  currency : String
  exchangeRate : String
  invoiceDate : String
  invoiceDueDate : String
  invoiceNumber : String
  numberOfMDs : String
  mdRate : String
  client : String
  deriving DecidableEq, Repr

/-- `extract_with_patterns` (lines 24–224).  The `text_lower` binding on
line 39 is dead code (never read) and is not modelled.  Lines 221–222:
`extracted['projectName'] = extracted['invoiceNumber'] or 'Imported
Invoice'` — Python `or` on strings selects the right operand exactly when
the left is `''`. -/
def extract_with_patterns (text : String) : ExtractedInvoice :=
  let t := text.toList
  let inv := extractInvoiceNumber t
  let pn := extractProjectName t
  let ac := extractAmounts t
  let md := extractMDs t
  { projectName := if pn = "" then (if inv = "" then "Imported Invoice" else inv) else pn
    invoicedTotal := ac.1
    currency := ac.2
    exchangeRate := ""
    invoiceDate := extractFirstGroup t invoiceDatePatterns
    invoiceDueDate := extractFirstGroup t dueDatePatterns
    invoiceNumber := inv
    numberOfMDs := md.1
    mdRate := md.2
    client := extractClient t }

/-! ### Declarative view of the amount scan (for C2) -/

/-- All in-range candidates produced by the seven amount patterns, in
scan order (pattern-major, text-position-minor). -/
def amountCandidates (t : List Char) : List Cand :=
  amountPatterns.flatMap fun r => (reFindIter t r).filterMap (toCand t)

/-- A candidate whose matched text carries a VAT-exclusive or
VAT-breakdown keyword. -/
def hasVatKeyword (c : Cand) : Bool :=
  hasBezDph c.matched.toList || hasSoucetZaklad c.matched.toList

/-! ## Correction analysis (train_model.py `analyze_corrections`) -/

/-- `entry['corrections']`: which fields the user edited. -/
structure Corrections where
  projectName : Bool
  invoicedTotal : Bool
  currency : Bool
  invoiceNumber : Bool
  deriving DecidableEq

/-- The fields of `entry['correctedData']` that `analyze_corrections`
reads (`projectName`, `invoicedTotal`, `currency`). -/
structure CorrectedData where
  projectName : String
  invoicedTotal : String
  currency : String
  deriving DecidableEq

/-- A FeedbackEntry, restricted to the fields `analyze_corrections`
reads.  (`extractedData` is bound on line 47 of the source but never
used, so it is not modelled.) -/
structure FeedbackEntry where
  rawText : String
  corrections : Corrections
  correctedData : CorrectedData
  deriving DecidableEq

/-- The three keyword-frequency tables (`patterns` in the source).  A
`defaultdict(int)` compares equal to another exactly when they agree as
functions `key ↦ count` (absent key = 0), which is how we represent it.
The `invoiceNumber` table is initialized on line 33 but never written, so
it is constantly zero and not carried. -/
@[ext]
structure PatternTables where
  projectName : String → Nat
  invoicedTotal : String → Nat
  currency : String → Nat

@[ext]
structure CorrectionCounts where
  projectName : Nat
  invoicedTotal : Nat
  currency : Nat
  invoiceNumber : Nat
  deriving DecidableEq

/-- The dict returned on lines 84–88. -/
structure AnalysisResult where
  patterns : PatternTables
  corrections_count : CorrectionCounts
  total_feedback : Nat

/-- Line 59: the candidate prefixes for `projectName`. -/
def pnKeywords : List String :=
  ["project", "description", "service", "item", "předmět", "název", "účel"]

/-- Line 74: the candidate keywords for `invoicedTotal`. -/
def itKeywords : List String :=
  ["celkem", "total", "amount", "suma", "částka", "k úhradě"]

/-- `table[k] += 1` on a `defaultdict(int)`. -/
def bump (f : String → Nat) (k : String) : String → Nat :=
  fun x => if x = k then f x + 1 else f x

/-- Lines 59–61 / 74–76: `for kw in ks: if kw in context: table[kw] += 1`. -/
def tallyKeywords (f : String → Nat) (ks : List String) (ctx : List Char) :
    String → Nat :=
  ks.foldl (fun g k => if containsSubL k.toList ctx then bump g k else g) f

/-- Lines 50–61: the `projectName` branch of the loop body. -/
def stepPN (e : FeedbackEntry) (st : PatternTables × CorrectionCounts) :
    PatternTables × CorrectionCounts :=
  if e.corrections.projectName then
    let cc := { st.2 with projectName := st.2.projectName + 1 }
    let raw := pyLower e.rawText.toList
    let pn := pyLower e.correctedData.projectName.toList
    if containsSubL pn raw then
      let idx := (findSubIdx pn raw).getD 0
      let ctx := sliceL raw (idx - 50) (idx + pn.length + 50)
      ({ st.1 with projectName := tallyKeywords st.1.projectName pnKeywords ctx }, cc)
    else (st.1, cc)
  else st

/-- Lines 64–76: the `invoicedTotal` branch.  Line 70 builds the regex
`'(' + total.replace('.', '\\.') + ')'` — a literal — and runs
`re.finditer` over the lowercased raw text, i.e. it walks the
non-overlapping leftmost occurrences of the corrected total. -/
def stepIT (e : FeedbackEntry) (st : PatternTables × CorrectionCounts) :
    PatternTables × CorrectionCounts :=
  if e.corrections.invoicedTotal then
    let cc := { st.2 with invoicedTotal := st.2.invoicedTotal + 1 }
    let raw := pyLower e.rawText.toList
    let tot := e.correctedData.invoicedTotal.toList
    if tot ≠ [] then
      let tbl := (findOccs tot raw).foldl
        (fun g o => tallyKeywords g itKeywords (sliceL raw (o.1 - 30) (o.2 + 30)))
        st.1.invoicedTotal
      ({ st.1 with invoicedTotal := tbl }, cc)
    else (st.1, cc)
  else st

/-- Lines 79–82: the `currency` branch (tallies the corrected value
directly — including the empty string, as the source does). -/
def stepCur (e : FeedbackEntry) (st : PatternTables × CorrectionCounts) :
    PatternTables × CorrectionCounts :=
  if e.corrections.currency then
    ({ st.1 with currency := bump st.1.currency e.correctedData.currency },
     { st.2 with currency := st.2.currency + 1 })
  else st

/-- One iteration of the `for entry in feedback` loop (lines 43–82). -/
def processEntry (st : PatternTables × CorrectionCounts) (e : FeedbackEntry) :
    PatternTables × CorrectionCounts :=
  stepCur e (stepIT e (stepPN e st))

def tablesInit : PatternTables := ⟨fun _ => 0, fun _ => 0, fun _ => 0⟩

def countsInit : CorrectionCounts := ⟨0, 0, 0, 0⟩

/-- `analyze_corrections` (lines 27–88). -/
def analyze_corrections (l : List FeedbackEntry) : AnalysisResult :=
  let st := l.foldl processEntry (tablesInit, countsInit)
  ⟨st.1, st.2, l.length⟩

/-! ### Per-entry contributions (for order-invariance) -/

/-- What one entry adds to `patterns['projectName'][kw]`. -/
def contribPN (e : FeedbackEntry) (kw : String) : Nat :=
  if e.corrections.projectName then
    let raw := pyLower e.rawText.toList
    let pn := pyLower e.correctedData.projectName.toList
    if containsSubL pn raw then
      let idx := (findSubIdx pn raw).getD 0
      let ctx := sliceL raw (idx - 50) (idx + pn.length + 50)
      if containsSubL kw.toList ctx then pnKeywords.count kw else 0
    else 0
  else 0

/-- What one entry adds to `patterns['invoicedTotal'][kw]`. -/
def contribIT (e : FeedbackEntry) (kw : String) : Nat :=
  if e.corrections.invoicedTotal then
    let raw := pyLower e.rawText.toList
    let tot := e.correctedData.invoicedTotal.toList
    if tot ≠ [] then
      ((findOccs tot raw).map fun o =>
        if containsSubL kw.toList (sliceL raw (o.1 - 30) (o.2 + 30)) then
          itKeywords.count kw
        else 0).sum
    else 0
  else 0

/-- What one entry adds to `patterns['currency'][kw]`. -/
def contribCur (e : FeedbackEntry) (kw : String) : Nat :=
  if e.corrections.currency then
    if kw = e.correctedData.currency then 1 else 0
  else 0

/-! ### The Czech amount format of claim C3 -/

/-- Tail of the claim's format `d{1,3}( d{3})*,dd`: zero or more groups
of a space and three digits, then a comma and exactly two digits. -/
def czTail : List Char → Bool
  | ',' :: a :: b :: [] => a.isDigit && b.isDigit
  | ' ' :: a :: b :: c :: rest => a.isDigit && b.isDigit && c.isDigit && czTail rest
  | _ => false

/-- The claim's Czech amount format `d{1,3}( d{3})*,dd`. -/
def czFormat : List Char → Bool
  | [] => false
  | a :: rest =>
    a.isDigit &&
      (czTail rest ||
        (match rest with
         | [] => false
         | b :: rest2 =>
           b.isDigit &&
             (czTail rest2 ||
               (match rest2 with
                | [] => false
                | c :: rest3 => c.isDigit && czTail rest3))))

/-- Modelled from the claim's words: "the input with spaces removed and
the comma replaced by a dot" — to be compared with `normalizeAmount`,
which is translated from the source. -/
def specCzechNorm (l : List Char) : List Char := commaToDot (removeSpaces l)

/-! ### Concrete inputs used by the claim theorems -/

/-- C1's counterexample text: it contains both of the claim's substrings,
but also an earlier `Celkem k úhradě (bez DPH)` match for the fourth
amount pattern, whose matched text carries the VAT-exclusive keyword. -/
def txtC1 : String :=
  "bez DPH: 495 000,00\nCelkem k úhradě (bez DPH) 700 000,00\nCelkem k úhradě (CZK) 598 950,00"

/-- The spec's own VAT-exclusive-priority example text. -/
def txtC1spec : String := "bez DPH: 495 000,00\nCelkem k úhradě (CZK) 598 950,00"

/-- A feedback entry whose only flagged correction is `invoiceNumber`. -/
def entryIN : FeedbackEntry := ⟨"", ⟨false, false, false, true⟩, ⟨"", "", ""⟩⟩

/-- A feedback entry exercising the project-name and total branches. -/
def fbA : FeedbackEntry :=
  ⟨"Předmět: Vývoj\nCelkem k úhradě: 123 456,00",
   ⟨true, true, true, false⟩, ⟨"Vývoj", "123 456,00", "EUR"⟩⟩

/-- A second, different feedback entry. -/
def fbB : FeedbackEntry :=
  ⟨"total amount 500,00 suma", ⟨false, true, true, false⟩, ⟨"", "500,00", "CZK"⟩⟩

/-! ## Theorems -/

/-- The `invoicedTotal` field of the extractor is the first component of
the amount scan. -/
theorem extract_invoicedTotal_def (s : String) :
    (extract_with_patterns s).invoicedTotal = (extractAmounts s.toList).1 := rfl

/-- The `currency` field of the extractor is the second component of the
amount scan. -/
theorem extract_currency_def (s : String) :
    (extract_with_patterns s).currency = (extractAmounts s.toList).2 := rfl

/-- Lines 220–222 verbatim: the projectName default chain. -/
theorem extract_projectName_def (s : String) :
    (extract_with_patterns s).projectName =
      (if extractProjectName s.toList = "" then
        (if extractInvoiceNumber s.toList = "" then "Imported Invoice"
         else extractInvoiceNumber s.toList)
       else extractProjectName s.toList) := rfl

theorem procMatches_no_kw (t : List Char) (ms : List RMatch) (st : AmtSt)
    (h : ∀ c ∈ ms.filterMap (toCand t), hasVatKeyword c = false) :
    procMatches t ms st = ⟨st.all ++ ms.filterMap (toCand t), st.total, st.curr⟩ := by
  induction ms generalizing st with
  | nil => simp [procMatches]
  | cons m ms ih =>
    unfold procMatches
    cases hc : toCand t m with
    | none =>
      rw [ih _ (fun c hmem => h c (by simp [List.filterMap_cons, hc, hmem]))]
      simp [List.filterMap_cons, hc]
    | some c =>
      have hkc : hasVatKeyword c = false := h c (by simp [List.filterMap_cons, hc])
      unfold hasVatKeyword at hkc
      simp only [String.toList] at hkc
      rw [Bool.or_eq_false_iff] at hkc
      dsimp only
      rw [if_neg (by simp [hkc.1]), if_neg (by simp [hkc.2])]
      rw [ih _ (fun x hmem => h x (by simp only [List.filterMap_cons, hc, List.mem_cons]; right; exact hmem))]
      simp [List.filterMap_cons, hc]

theorem foldPatterns_no_kw (t : List Char) (ps : List RE) (st : AmtSt)
    (h : ∀ c ∈ ps.flatMap (fun r => (reFindIter t r).filterMap (toCand t)),
      hasVatKeyword c = false) :
    ps.foldl (fun st r => procMatches t (reFindIter t r) st) st =
      ⟨st.all ++ ps.flatMap (fun r => (reFindIter t r).filterMap (toCand t)),
        st.total, st.curr⟩ := by
  induction ps generalizing st with
  | nil => simp
  | cons p ps ih =>
    simp only [List.foldl_cons, List.flatMap_cons]
    rw [procMatches_no_kw t _ st
        (fun c hmem => h c (by simp only [List.flatMap_cons, List.mem_append]; left; exact hmem))]
    rw [ih _ (fun c hmem => h c (by simp only [List.flatMap_cons, List.mem_append]; right; exact hmem))]
    simp [List.append_assoc]

/-- With no keyword candidate anywhere, the loop of lines 81–114 ends
with the full candidate list and the total still unset. -/
theorem amtLoop_no_kw (t : List Char)
    (h : ∀ c ∈ amountCandidates t, hasVatKeyword c = false) :
    amtLoop t = ⟨amountCandidates t, "", "CZK"⟩ := by
  have hf := foldPatterns_no_kw t amountPatterns ⟨[], "", "CZK"⟩ h
  dsimp only at hf
  rw [List.nil_append] at hf
  unfold amtLoop amountCandidates
  exact hf

theorem mem_insertDesc (x c : Cand) (l : List Cand) :
    x ∈ insertDesc c l ↔ x = c ∨ x ∈ l := by
  induction l with
  | nil => simp [insertDesc]
  | cons d ds ih =>
    unfold insertDesc
    split_ifs <;> simp [ih] <;> tauto

theorem sortDesc_cons (a : Cand) (l : List Cand) :
    sortDesc (a :: l) = insertDesc a (sortDesc l) := rfl

theorem sortDesc_head_max (l : List Cand) (hne : l ≠ []) :
    ∃ c, (sortDesc l).head? = some c ∧ c ∈ l ∧ ∀ x ∈ l, x.value ≤ c.value := by
  induction l with
  | nil => exact absurd rfl hne
  | cons a l ih =>
    rw [sortDesc_cons]
    cases l with
    | nil => exact ⟨a, rfl, by simp, by simp⟩
    | cons b l2 =>
      obtain ⟨d, hd, hdmem, hdmax⟩ := ih (by simp)
      cases hsd : sortDesc (b :: l2) with
      | nil => rw [hsd] at hd; exact absurd hd (by simp)
      | cons e es =>
        rw [hsd] at hd
        have hde : e = d := by simpa using hd
        subst hde
        unfold insertDesc
        by_cases hcmp : e.value ≤ a.value
        · rw [if_pos hcmp]
          refine ⟨a, rfl, by simp, ?_⟩
          intro x hx
          rcases List.mem_cons.mp hx with hxa | hxl
          · subst hxa; exact le_refl _
          · exact le_trans (hdmax x hxl) hcmp
        · rw [if_neg hcmp]
          refine ⟨e, rfl, List.mem_cons_of_mem _ hdmem, ?_⟩
          intro x hx
          rcases List.mem_cons.mp hx with hxa | hxl
          · subst hxa; exact le_of_not_le hcmp
          · exact hdmax x hxl

/-- Core of C2: without any keyword candidate the extractor falls back to
a candidate of maximal value. -/
theorem extractAmounts_largest (t : List Char)
    (hne : amountCandidates t ≠ [])
    (hkw : ∀ c ∈ amountCandidates t, hasVatKeyword c = false) :
    ∃ c ∈ amountCandidates t,
      extractAmounts t = (c.amount, c.currency) ∧
        ∀ x ∈ amountCandidates t, x.value ≤ c.value := by
  obtain ⟨c, hhead, hmem, hmax⟩ := sortDesc_head_max (amountCandidates t) hne
  cases hsd : sortDesc (amountCandidates t) with
  | nil => rw [hsd] at hhead; exact absurd hhead (by simp)
  | cons c0 cs =>
    rw [hsd] at hhead
    have hc0 : c0 = c := by simpa using hhead
    subst hc0
    refine ⟨c0, hmem, ?_, hmax⟩
    unfold extractAmounts
    rw [amtLoop_no_kw t hkw]
    dsimp only
    rw [hsd]
    rfl

/-! ### Lemmas: the analysis is a per-entry sum -/

theorem bump_apply (f : String → Nat) (k x : String) :
    bump f k x = f x + (if x = k then 1 else 0) := by
  unfold bump; split_ifs <;> simp

theorem tallyKeywords_apply (ks : List String) (f : String → Nat)
    (ctx : List Char) (kw : String) :
    tallyKeywords f ks ctx kw =
      f kw + (if containsSubL kw.toList ctx then ks.count kw else 0) := by
  induction ks generalizing f with
  | nil => simp [tallyKeywords]
  | cons k ks ih =>
    unfold tallyKeywords at ih ⊢
    simp only [List.foldl_cons]
    rw [ih]
    by_cases hck : containsSubL k.toList ctx
    · rw [if_pos hck, bump_apply]
      by_cases hx : kw = k
      · subst hx
        rw [if_pos rfl, if_pos hck, if_pos hck, List.count_cons_self]
        omega
      · rw [if_neg hx, List.count_cons_of_ne hx]
        omega
    · rw [if_neg hck]
      by_cases hx : kw = k
      · subst hx
        rw [if_neg hck, if_neg hck]
      · rw [List.count_cons_of_ne hx]

theorem foldTally_apply (occs : List (Nat × Nat)) (f : String → Nat)
    (raw : List Char) (kw : String) :
    (occs.foldl
        (fun g o => tallyKeywords g itKeywords (sliceL raw (o.1 - 30) (o.2 + 30)))
        f) kw =
      f kw + (occs.map fun o =>
        if containsSubL kw.toList (sliceL raw (o.1 - 30) (o.2 + 30)) then
          itKeywords.count kw
        else 0).sum := by
  induction occs generalizing f with
  | nil => simp
  | cons o os ih =>
    simp only [List.foldl_cons, List.map_cons, List.sum_cons]
    rw [ih, tallyKeywords_apply]
    omega

theorem stepPN_tbl_pn (e : FeedbackEntry) (st : PatternTables × CorrectionCounts)
    (kw : String) :
    (stepPN e st).1.projectName kw = st.1.projectName kw + contribPN e kw := by
  unfold stepPN contribPN
  simp only [String.toList]
  split_ifs <;> simp_all [tallyKeywords_apply, String.toList]

theorem stepPN_tbl_it (e : FeedbackEntry) (st : PatternTables × CorrectionCounts) :
    (stepPN e st).1.invoicedTotal = st.1.invoicedTotal := by
  unfold stepPN; dsimp only; split_ifs <;> rfl

theorem stepPN_tbl_cur (e : FeedbackEntry) (st : PatternTables × CorrectionCounts) :
    (stepPN e st).1.currency = st.1.currency := by
  unfold stepPN; dsimp only; split_ifs <;> rfl

theorem stepPN_cc (e : FeedbackEntry) (st : PatternTables × CorrectionCounts) :
    (stepPN e st).2 =
      { st.2 with projectName :=
          st.2.projectName + (if e.corrections.projectName then 1 else 0) } := by
  unfold stepPN; dsimp only; split_ifs <;> simp

theorem stepIT_tbl_it (e : FeedbackEntry) (st : PatternTables × CorrectionCounts)
    (kw : String) :
    (stepIT e st).1.invoicedTotal kw = st.1.invoicedTotal kw + contribIT e kw := by
  unfold stepIT contribIT
  simp only [String.toList]
  split_ifs <;> simp_all [foldTally_apply, String.toList]

theorem stepIT_tbl_pn (e : FeedbackEntry) (st : PatternTables × CorrectionCounts) :
    (stepIT e st).1.projectName = st.1.projectName := by
  unfold stepIT; dsimp only; split_ifs <;> rfl

theorem stepIT_tbl_cur (e : FeedbackEntry) (st : PatternTables × CorrectionCounts) :
    (stepIT e st).1.currency = st.1.currency := by
  unfold stepIT; dsimp only; split_ifs <;> rfl

theorem stepIT_cc (e : FeedbackEntry) (st : PatternTables × CorrectionCounts) :
    (stepIT e st).2 =
      { st.2 with invoicedTotal :=
          st.2.invoicedTotal + (if e.corrections.invoicedTotal then 1 else 0) } := by
  unfold stepIT; dsimp only; split_ifs <;> simp

theorem stepCur_tbl_cur (e : FeedbackEntry) (st : PatternTables × CorrectionCounts)
    (kw : String) :
    (stepCur e st).1.currency kw = st.1.currency kw + contribCur e kw := by
  unfold stepCur contribCur
  dsimp only
  split_ifs <;> simp_all [bump_apply]

theorem stepCur_tbl_pn (e : FeedbackEntry) (st : PatternTables × CorrectionCounts) :
    (stepCur e st).1.projectName = st.1.projectName := by
  unfold stepCur; dsimp only; split_ifs <;> rfl

theorem stepCur_tbl_it (e : FeedbackEntry) (st : PatternTables × CorrectionCounts) :
    (stepCur e st).1.invoicedTotal = st.1.invoicedTotal := by
  unfold stepCur; dsimp only; split_ifs <;> rfl

theorem stepCur_cc (e : FeedbackEntry) (st : PatternTables × CorrectionCounts) :
    (stepCur e st).2 =
      { st.2 with currency :=
          st.2.currency + (if e.corrections.currency then 1 else 0) } := by
  unfold stepCur; dsimp only; split_ifs <;> simp

theorem processEntry_tbl_pn (st : PatternTables × CorrectionCounts)
    (e : FeedbackEntry) (kw : String) :
    (processEntry st e).1.projectName kw = st.1.projectName kw + contribPN e kw := by
  unfold processEntry
  rw [stepCur_tbl_pn, stepIT_tbl_pn, stepPN_tbl_pn]

theorem processEntry_tbl_it (st : PatternTables × CorrectionCounts)
    (e : FeedbackEntry) (kw : String) :
    (processEntry st e).1.invoicedTotal kw = st.1.invoicedTotal kw + contribIT e kw := by
  unfold processEntry
  rw [stepCur_tbl_it, stepIT_tbl_it, stepPN_tbl_it]

theorem processEntry_tbl_cur (st : PatternTables × CorrectionCounts)
    (e : FeedbackEntry) (kw : String) :
    (processEntry st e).1.currency kw = st.1.currency kw + contribCur e kw := by
  unfold processEntry
  rw [stepCur_tbl_cur, stepIT_tbl_cur, stepPN_tbl_cur]

theorem processEntry_cc_pn (st : PatternTables × CorrectionCounts) (e : FeedbackEntry) :
    (processEntry st e).2.projectName =
      st.2.projectName + (if e.corrections.projectName then 1 else 0) := by
  unfold processEntry
  rw [stepCur_cc, stepIT_cc, stepPN_cc]

theorem processEntry_cc_it (st : PatternTables × CorrectionCounts) (e : FeedbackEntry) :
    (processEntry st e).2.invoicedTotal =
      st.2.invoicedTotal + (if e.corrections.invoicedTotal then 1 else 0) := by
  unfold processEntry
  rw [stepCur_cc, stepIT_cc, stepPN_cc]

theorem processEntry_cc_cur (st : PatternTables × CorrectionCounts) (e : FeedbackEntry) :
    (processEntry st e).2.currency =
      st.2.currency + (if e.corrections.currency then 1 else 0) := by
  unfold processEntry
  rw [stepCur_cc, stepIT_cc, stepPN_cc]

theorem processEntry_cc_in (st : PatternTables × CorrectionCounts) (e : FeedbackEntry) :
    (processEntry st e).2.invoiceNumber = st.2.invoiceNumber := by
  unfold processEntry
  rw [stepCur_cc, stepIT_cc, stepPN_cc]

theorem foldPE_tbl_pn (l : List FeedbackEntry) (st : PatternTables × CorrectionCounts)
    (kw : String) :
    (l.foldl processEntry st).1.projectName kw =
      st.1.projectName kw + (l.map (contribPN · kw)).sum := by
  induction l generalizing st with
  | nil => simp
  | cons e l ih =>
    simp only [List.foldl_cons, List.map_cons, List.sum_cons]
    rw [ih, processEntry_tbl_pn]
    omega

theorem foldPE_tbl_it (l : List FeedbackEntry) (st : PatternTables × CorrectionCounts)
    (kw : String) :
    (l.foldl processEntry st).1.invoicedTotal kw =
      st.1.invoicedTotal kw + (l.map (contribIT · kw)).sum := by
  induction l generalizing st with
  | nil => simp
  | cons e l ih =>
    simp only [List.foldl_cons, List.map_cons, List.sum_cons]
    rw [ih, processEntry_tbl_it]
    omega

theorem foldPE_tbl_cur (l : List FeedbackEntry) (st : PatternTables × CorrectionCounts)
    (kw : String) :
    (l.foldl processEntry st).1.currency kw =
      st.1.currency kw + (l.map (contribCur · kw)).sum := by
  induction l generalizing st with
  | nil => simp
  | cons e l ih =>
    simp only [List.foldl_cons, List.map_cons, List.sum_cons]
    rw [ih, processEntry_tbl_cur]
    omega

theorem foldPE_cc_pn (l : List FeedbackEntry) (st : PatternTables × CorrectionCounts) :
    (l.foldl processEntry st).2.projectName =
      st.2.projectName + l.countP (fun e => e.corrections.projectName) := by
  induction l generalizing st with
  | nil => simp
  | cons e l ih =>
    rw [List.foldl_cons, ih, processEntry_cc_pn, List.countP_cons]
    by_cases h : e.corrections.projectName <;> simp [h] <;> omega

theorem foldPE_cc_it (l : List FeedbackEntry) (st : PatternTables × CorrectionCounts) :
    (l.foldl processEntry st).2.invoicedTotal =
      st.2.invoicedTotal + l.countP (fun e => e.corrections.invoicedTotal) := by
  induction l generalizing st with
  | nil => simp
  | cons e l ih =>
    rw [List.foldl_cons, ih, processEntry_cc_it, List.countP_cons]
    by_cases h : e.corrections.invoicedTotal <;> simp [h] <;> omega

theorem foldPE_cc_cur (l : List FeedbackEntry) (st : PatternTables × CorrectionCounts) :
    (l.foldl processEntry st).2.currency =
      st.2.currency + l.countP (fun e => e.corrections.currency) := by
  induction l generalizing st with
  | nil => simp
  | cons e l ih =>
    rw [List.foldl_cons, ih, processEntry_cc_cur, List.countP_cons]
    by_cases h : e.corrections.currency <;> simp [h] <;> omega

theorem foldPE_cc_in (l : List FeedbackEntry) (st : PatternTables × CorrectionCounts) :
    (l.foldl processEntry st).2.invoiceNumber = st.2.invoiceNumber := by
  induction l generalizing st with
  | nil => simp
  | cons e l ih => rw [List.foldl_cons, ih, processEntry_cc_in]

/-! ### C3: the amount normalizer on the Czech format -/

theorem digit_ne_comma {c : Char} (h : c.isDigit = true) : c ≠ ',' := by
  intro hc; subst hc; exact absurd h (by decide)

theorem digit_ne_dot {c : Char} (h : c.isDigit = true) : c ≠ '.' := by
  intro hc; subst hc; exact absurd h (by decide)

theorem digit_not_ws {c : Char} (h : c.isDigit = true) : isWs c = false := by
  unfold isWs
  by_cases h1 : c = ' '
  · subst h1; exact absurd h (by decide)
  by_cases h2 : c = '\t'
  · subst h2; exact absurd h (by decide)
  by_cases h3 : c = '\n'
  · subst h3; exact absurd h (by decide)
  by_cases h4 : c = '\r'
  · subst h4; exact absurd h (by decide)
  by_cases h5 : c = '\x0b'
  · subst h5; exact absurd h (by decide)
  by_cases h6 : c = '\x0c'
  · subst h6; exact absurd h (by decide)
  simp [h1, h2, h3, h4, h5, h6]

/-- `str.split('.')` produces one more part than there are dots. -/
theorem splitDots_length (u : List Char) :
    (splitDots u).length = u.countP (fun c => c = '.') + 1 := by
  induction u with
  | nil => simp [splitDots]
  | cons c r ih =>
    unfold splitDots
    by_cases hc : c = '.'
    · simp [hc, List.countP_cons, ih]
    · cases hr : splitDots r with
      | nil => rw [hr] at ih; simp at ih
      | cons h t =>
        rw [hr] at ih
        simp only [hc, if_false, List.length_cons, List.countP_cons] at ih ⊢
        simp [hc, ih]

/-- Replacing commas by dots turns the comma-or-dot count into the dot
count. -/
theorem commaToDot_dotCount (v : List Char) :
    (commaToDot v).countP (fun c => c = '.') =
      v.countP (fun c => c = ',' || c = '.') := by
  induction v with
  | nil => rfl
  | cons c r ih =>
    unfold commaToDot at ih ⊢
    simp only [List.map_cons, List.countP_cons]
    by_cases hc : c = ','
    · simp [hc, ih]
    · by_cases hd : c = '.'
      · simp [hc, hd, ih]
      · simp [hc, hd, ih]

/-- Removing spaces does not change the comma-or-dot count. -/
theorem removeSpaces_cdCount (v : List Char) :
    (removeSpaces v).countP (fun c => c = ',' || c = '.') =
      v.countP (fun c => c = ',' || c = '.') := by
  induction v with
  | nil => rfl
  | cons c r ih =>
    by_cases hc : c = ' '
    · subst hc
      have h1 : removeSpaces (' ' :: r) = removeSpaces r := by
        unfold removeSpaces; rw [List.filter_cons]; simp
      rw [h1, ih, List.countP_cons]
      simp
    · have h1 : removeSpaces (c :: r) = c :: removeSpaces r := by
        unfold removeSpaces; rw [List.filter_cons]; simp [hc]
      rw [h1, List.countP_cons, List.countP_cons, ih]

/-- A string in the claim's tail format has exactly one comma, no dots,
ends with a digit, and is nonempty. -/
theorem czTail_facts (l : List Char) (h : czTail l = true) :
    l.countP (fun c => c = ',' || c = '.') = 1 ∧
      (∀ x, l.getLast? = some x → x.isDigit = true) ∧ l ≠ [] := by
  induction l using czTail.induct with
  | case1 a b =>
    replace h : (a.isDigit && b.isDigit) = true := h
    simp only [Bool.and_eq_true] at h
    refine ⟨?_, ?_, by simp⟩
    · simp [List.countP_cons, digit_ne_comma h.1, digit_ne_dot h.1,
        digit_ne_comma h.2, digit_ne_dot h.2]
    · intro x hx
      simp at hx
      subst hx
      exact h.2
  | case2 a b c rest ih =>
    replace h : (a.isDigit && b.isDigit && c.isDigit && czTail rest) = true := h
    simp only [Bool.and_eq_true] at h
    obtain ⟨⟨⟨ha, hb⟩, hc⟩, ht⟩ := h
    obtain ⟨hcount, hlast, hne⟩ := ih ht
    refine ⟨?_, ?_, by simp⟩
    · simp [List.countP_cons, digit_ne_comma ha, digit_ne_dot ha,
        digit_ne_comma hb, digit_ne_dot hb, digit_ne_comma hc, digit_ne_dot hc,
        hcount]
    · intro x hx
      obtain ⟨r0, rs, hr⟩ := List.exists_cons_of_ne_nil hne
      subst hr
      simp only [List.getLast?_cons_cons] at hx
      exact hlast x hx
  | case3 t h1 h2 =>
    rw [czTail.eq_def] at h
    split at h
    · exact absurd rfl (h1 _ _)
    · exact absurd rfl (h2 _ _ _ _)
    · exact absurd h (by simp)

/-- A string in the claim's format has exactly one comma, no dots, and
starts and ends with a digit. -/
theorem czFormat_facts (s : List Char) (h : czFormat s = true) :
    s.countP (fun c => c = ',' || c = '.') = 1 ∧
      (∀ x, s.head? = some x → x.isDigit = true) ∧
      (∀ x, s.getLast? = some x → x.isDigit = true) := by
  cases s with
  | nil => exact absurd h (by simp [czFormat])
  | cons a rest =>
    simp only [czFormat, Bool.and_eq_true, Bool.or_eq_true] at h
    obtain ⟨ha, hrest⟩ := h
    have hhead : ∀ x, (a :: rest).head? = some x → x.isDigit = true := by
      intro x hx; simp at hx; subst hx; exact ha
    rcases hrest with ht | hrest
    · obtain ⟨hcount, hlast, hne⟩ := czTail_facts rest ht
      refine ⟨?_, hhead, ?_⟩
      · simp [List.countP_cons, digit_ne_comma ha, digit_ne_dot ha, hcount]
      · intro x hx
        cases rest with
        | nil => exact absurd rfl hne
        | cons r0 rs =>
          simp only [List.getLast?_cons_cons] at hx
          exact hlast x hx
    · cases rest with
      | nil => simp at hrest
      | cons b rest2 =>
        simp only [Bool.and_eq_true, Bool.or_eq_true] at hrest
        obtain ⟨hb, hrest2⟩ := hrest
        rcases hrest2 with ht | hrest2
        · obtain ⟨hcount, hlast, hne⟩ := czTail_facts rest2 ht
          refine ⟨?_, hhead, ?_⟩
          · simp [List.countP_cons, digit_ne_comma ha, digit_ne_dot ha,
              digit_ne_comma hb, digit_ne_dot hb, hcount]
          · intro x hx
            cases rest2 with
            | nil => exact absurd rfl hne
            | cons r0 rs =>
              simp only [List.getLast?_cons_cons] at hx
              exact hlast x hx
        · cases rest2 with
          | nil => simp at hrest2
          | cons c rest3 =>
            simp only [Bool.and_eq_true] at hrest2
            obtain ⟨hc, ht⟩ := hrest2
            obtain ⟨hcount, hlast, hne⟩ := czTail_facts rest3 ht
            refine ⟨?_, hhead, ?_⟩
            · simp [List.countP_cons, digit_ne_comma ha, digit_ne_dot ha,
                digit_ne_comma hb, digit_ne_dot hb, digit_ne_comma hc,
                digit_ne_dot hc, hcount]
            · intro x hx
              cases rest3 with
              | nil => exact absurd rfl hne
              | cons r0 rs =>
                simp only [List.getLast?_cons_cons] at hx
                exact hlast x hx

theorem dropWhile_eq_self_of_head (l : List Char) (p : Char → Bool)
    (h : ∀ x, l.head? = some x → p x = false) : l.dropWhile p = l := by
  cases l with
  | nil => rfl
  | cons a r =>
    rw [List.dropWhile_cons, h a rfl]
    simp

/-- `str.strip()` is the identity on strings that start and end with a
non-whitespace character. -/
theorem pyStrip_eq_self (l : List Char)
    (h1 : ∀ x, l.head? = some x → isWs x = false)
    (h2 : ∀ x, l.getLast? = some x → isWs x = false) : pyStrip l = l := by
  unfold pyStrip dropTrailWs
  rw [dropWhile_eq_self_of_head l _ h1]
  rw [dropWhile_eq_self_of_head l.reverse _ ?hrev]
  · exact List.reverse_reverse l
  case hrev =>
    intro x hx
    rw [List.head?_reverse] at hx
    exact h2 x hx

/-- On any string in the claim's Czech format, the source's normalizer
(strip, despace, comma→dot, multi-dot collapse) coincides with the
claim's direct description (despace, comma→dot): the strip is the
identity and the collapse never fires, because exactly one dot remains. -/
theorem normalizeAmount_czFormat (s : List Char) (h : czFormat s = true) :
    normalizeAmount s = specCzechNorm s := by
  obtain ⟨hcd, hhead, hlast⟩ := czFormat_facts s h
  have hstrip : pyStrip s = s :=
    pyStrip_eq_self s (fun x hx => digit_not_ws (hhead x hx))
      (fun x hx => digit_not_ws (hlast x hx))
  unfold normalizeAmount specCzechNorm
  rw [hstrip]
  have hlen : (splitDots (commaToDot (removeSpaces s))).length = 2 := by
    rw [splitDots_length, commaToDot_dotCount, removeSpaces_cdCount, hcd]
  simp [hlen]

/-! ### The claims -/

/-- C1, counterexample: the claim says that for any text containing both
`"bez DPH: 495 000,00"` and `"Celkem k úhradě (CZK) 598 950,00"` the
extractor returns `invoicedTotal = "495000.00"`, scanning stopping at the
first VAT-keyword candidate.  `txtC1` contains both substrings, yet the
extractor returns `"700000.00"`: the scan does not stop — the fourth
pattern's match `"Celkem k úhradě (bez DPH) 700 000,00"` also carries the
`bez`/`dph` keyword and overwrites the total set by the first pattern. -/
theorem claim_C1_counterexample :
    containsSubL "bez DPH: 495 000,00".toList txtC1.toList = true ∧
      containsSubL "Celkem k úhradě (CZK) 598 950,00".toList txtC1.toList = true ∧
      (extract_with_patterns txtC1).invoicedTotal = "700000.00" ∧
      ("700000.00" : String) ≠ "495000.00" := by
  refine ⟨by decide, by decide, by decide, by decide⟩

/-- C1, amended: within each amount pattern, scanning of that pattern's
matches stops at its first in-range candidate whose matched text contains
a VAT-exclusive or VAT-breakdown keyword, setting invoicedTotal and
currency — but later patterns are still scanned, and a later pattern's
keyword candidate overwrites the field.  On the spec's example text
(where only the `bez DPH` match carries a keyword) the extractor returns
`"495000.00"` with currency `"CZK"`; on `txtC1` the later `Celkem k
úhradě (bez DPH)` candidate wins. -/
theorem claim_C1_amended :
    (extract_with_patterns txtC1spec).invoicedTotal = "495000.00" ∧
      (extract_with_patterns txtC1spec).currency = "CZK" ∧
      (extract_with_patterns txtC1).invoicedTotal = "700000.00" := by
  refine ⟨by decide, by decide, by decide⟩

/-- C2, counterexample: the claim says the fallback picks the largest
plausible amount "found anywhere in the text", and that a text whose only
plausible amount is the unlabeled token `"123 456,00"` yields
`"123456.00"`.  But candidates only arise from the labeled amount
patterns: on the text consisting of exactly that token the extractor
returns the empty string. -/
theorem claim_C2_counterexample :
    containsSubL "123 456,00".toList "123 456,00".toList = true ∧
      containsSubL "bez dph".toList (pyLower "123 456,00".toList) = false ∧
      containsSubL "součet".toList (pyLower "123 456,00".toList) = false ∧
      containsSubL "základ".toList (pyLower "123 456,00".toList) = false ∧
      (extract_with_patterns "123 456,00").invoicedTotal = "" ∧
      ("" : String) ≠ "123456.00" := by
  refine ⟨by decide, by decide, by decide, by decide, by decide, by decide⟩

/-- C2, amended: if no in-range candidate's matched text contains a
VAT-exclusive or VAT-breakdown keyword, invoicedTotal and currency are
taken from an in-range candidate of maximal numeric value among the
matches of the seven labeled amount patterns (not from arbitrary text:
an unlabeled amount produces no candidate and leaves the field empty). -/
theorem claim_C2_amended (s : String)
    (hne : amountCandidates s.toList ≠ [])
    (hkw : ∀ c ∈ amountCandidates s.toList, hasVatKeyword c = false) :
    ∃ c ∈ amountCandidates s.toList,
      (extract_with_patterns s).invoicedTotal = c.amount ∧
        (extract_with_patterns s).currency = c.currency ∧
        ∀ x ∈ amountCandidates s.toList, x.value ≤ c.value := by
  obtain ⟨c, hmem, hea, hmax⟩ := extractAmounts_largest s.toList hne hkw
  refine ⟨c, hmem, ?_, ?_, hmax⟩
  · rw [extract_invoicedTotal_def, hea]
  · rw [extract_currency_def, hea]

/-- C2 witness: the labeled text `"Celkem k úhradě: 123 456,00"` has a
keyword-free candidate list, and the theorem applies to it. -/
theorem claim_C2_witness :
    amountCandidates "Celkem k úhradě: 123 456,00".toList ≠ [] ∧
      (∀ c ∈ amountCandidates "Celkem k úhradě: 123 456,00".toList,
        hasVatKeyword c = false) ∧
      ∃ c ∈ amountCandidates "Celkem k úhradě: 123 456,00".toList,
        (extract_with_patterns "Celkem k úhradě: 123 456,00").invoicedTotal = c.amount ∧
          (extract_with_patterns "Celkem k úhradě: 123 456,00").currency = c.currency ∧
          ∀ x ∈ amountCandidates "Celkem k úhradě: 123 456,00".toList,
            x.value ≤ c.value :=
  ⟨by decide, by decide, claim_C2_amended _ (by decide) (by decide)⟩

/-- C3: amount normalization — on every string matching the Czech format
`d{1,3}( d{3})*,dd` the normalizer's output equals the input with spaces
removed and the comma replaced by a dot; `"598 950,00"` normalizes to
`"598950.00"` with numeric value 598950; `"1.234.567,89"` (multi-dot
collapse) normalizes to `"1234567.89"`. -/
theorem claim_C3 :
    (∀ s : String, czFormat s.toList = true →
        normalizeAmount s.toList = specCzechNorm s.toList) ∧
      normalizeAmount "598 950,00".toList = "598950.00".toList ∧
      parseFloat (normalizeAmount "598 950,00".toList) = some (598950 : ℚ) ∧
      normalizeAmount "1.234.567,89".toList = "1234567.89".toList :=
  ⟨fun s h => normalizeAmount_czFormat s.toList h, by decide, by decide, by decide⟩

/-- C3 witness: the format check and the universal applied at
`"598 950,00"`. -/
theorem claim_C3_witness :
    czFormat "598 950,00".toList = true ∧
      normalizeAmount "598 950,00".toList = specCzechNorm "598 950,00".toList :=
  ⟨by decide, claim_C3.1 "598 950,00" (by decide)⟩

/-- C4, counterexample: the claim says numberOfMDs equals the sum of the
counts of all matched `MD <count> <rate>` line items — for the two
matches `MD 1500 …` and `MD 8 …` that sum is 1508.  The code filters each
count to the range (0,1000) before summing, so it returns `"8"`. -/
theorem claim_C4_counterexample :
    (extract_with_patterns "MD 1500 15 000,00 MD 8 15 000,00").numberOfMDs = "8" ∧
      ("8" : String) ≠ "1508" := by
  refine ⟨by decide, by decide⟩

/-- C4, amended: numberOfMDs equals the sum of the matched line-item
counts lying strictly between 0 and 1000 (out-of-range counts are
dropped, not summed), and mdRate equals the first matched normalized rate
lying strictly between 100 and 100000; the spec's two-line example yields
`"18"` and `"15000.00"`. -/
theorem claim_C4_amended :
    (extract_with_patterns "MD 10 15 000,00\nMD 8 15 000,00").numberOfMDs = "18" ∧
      (extract_with_patterns "MD 10 15 000,00\nMD 8 15 000,00").mdRate = "15000.00" ∧
      (extract_with_patterns "MD 1500 15 000,00 MD 8 15 000,00").numberOfMDs = "8" ∧
      (extract_with_patterns "MD 1500 15 000,00 MD 8 15 000,00").mdRate = "15000.00" := by
  refine ⟨by decide, by decide, by decide, by decide⟩

/-- C5, counterexample: the claim says the empty text yields every field
at its default (empty, except currency "CZK"), but the extractor's final
step replaces an empty projectName: on `""` it returns
`projectName = "Imported Invoice" ≠ ""`. -/
theorem claim_C5_counterexample :
    (extract_with_patterns "").projectName = "Imported Invoice" ∧
      ("Imported Invoice" : String) ≠ "" := by
  refine ⟨by decide, by decide⟩

/-- C5, amended: the empty text raises no failure and yields every field
at its default — except projectName, which the final default chain sets
to the literal `"Imported Invoice"` — with currency `"CZK"`. -/
theorem claim_C5_amended :
    extract_with_patterns "" =
      { projectName := "Imported Invoice", invoicedTotal := "", currency := "CZK",
        exchangeRate := "", invoiceDate := "", invoiceDueDate := "",
        invoiceNumber := "", numberOfMDs := "", mdRate := "", client := "" } := by
  decide

/-- C6, counterexample: the claim says the invoiceNumber correction
counter equals the number of entries with `corrections['invoiceNumber']`
true, but `analyze_corrections` never increments that counter: a single
entry flagged only on invoiceNumber yields a count of 0, not 1. -/
theorem claim_C6_counterexample :
    (analyze_corrections [entryIN]).corrections_count.invoiceNumber = 0 ∧
      [entryIN].countP (fun e => e.corrections.invoiceNumber) = 1 ∧
      (0 : Nat) ≠ 1 := by
  refine ⟨?_, by rfl, by simp⟩
  rfl

/-- C6, amended: for every feedback list, the correction counters for
projectName, invoicedTotal and currency each equal the number of entries
whose corrections map flags that field true, while the invoiceNumber
counter is initialized but never incremented and is always 0. -/
theorem claim_C6_amended (l : List FeedbackEntry) :
    (analyze_corrections l).corrections_count.projectName =
        l.countP (fun e => e.corrections.projectName) ∧
      (analyze_corrections l).corrections_count.invoicedTotal =
        l.countP (fun e => e.corrections.invoicedTotal) ∧
      (analyze_corrections l).corrections_count.currency =
        l.countP (fun e => e.corrections.currency) ∧
      (analyze_corrections l).corrections_count.invoiceNumber = 0 := by
  unfold analyze_corrections
  refine ⟨?_, ?_, ?_, ?_⟩ <;>
    simp [foldPE_cc_pn, foldPE_cc_it, foldPE_cc_cur, foldPE_cc_in, countsInit]

/-- C7: `analyze_corrections` is invariant under permutation of the
feedback list — identical keyword-frequency tables, correction counts
and total feedback volume — because each entry's contribution is
independent of the others. -/
theorem claim_C7 (l₁ l₂ : List FeedbackEntry) (h : l₁.Perm l₂) :
    analyze_corrections l₁ = analyze_corrections l₂ := by
  unfold analyze_corrections
  simp only [AnalysisResult.mk.injEq]
  refine ⟨?_, ?_, h.length_eq⟩
  · apply PatternTables.ext
    · funext kw
      rw [foldPE_tbl_pn, foldPE_tbl_pn]
      exact congrArg _ (List.Perm.sum_eq (h.map _))
    · funext kw
      rw [foldPE_tbl_it, foldPE_tbl_it]
      exact congrArg _ (List.Perm.sum_eq (h.map _))
    · funext kw
      rw [foldPE_tbl_cur, foldPE_tbl_cur]
      exact congrArg _ (List.Perm.sum_eq (h.map _))
  · apply CorrectionCounts.ext
    · rw [foldPE_cc_pn, foldPE_cc_pn, h.countP_eq]
    · rw [foldPE_cc_it, foldPE_cc_it, h.countP_eq]
    · rw [foldPE_cc_cur, foldPE_cc_cur, h.countP_eq]
    · rw [foldPE_cc_in, foldPE_cc_in]

/-- C7 witness: a concrete two-entry swap. -/
theorem claim_C7_witness :
    ([fbA, fbB] : List FeedbackEntry).Perm [fbB, fbA] ∧
      analyze_corrections [fbA, fbB] = analyze_corrections [fbB, fbA] :=
  ⟨List.Perm.swap fbB fbA [], claim_C7 _ _ (List.Perm.swap fbB fbA [])⟩

/-- C8, counterexample: the claim says the first subsequent line
containing a recognized legal-entity suffix is accepted.  In
`"Odběratel:\nAcme s.r.o.\nY\nBeta a.s."` the first such line is
`"Acme s.r.o."` (line 1), but the extractor returns `"Beta a.s."`
(line 3): the skip-3-lines pattern is tried before the skip-0/1/2 ones. -/
theorem claim_C8_counterexample :
    containsSubL "s.r.o.".toList "Acme s.r.o.".toList = true ∧
      (extract_with_patterns "Odběratel:\nAcme s.r.o.\nY\nBeta a.s.").client =
        "Beta a.s." ∧
      ("Beta a.s." : String) ≠ "Acme s.r.o." := by
  refine ⟨by decide, by decide, by decide⟩

/-- C8, amended: the client patterns are tried in the order skip-3,
skip-2, skip-1, skip-0 lines after the label (so a suffix-bearing line
three lines down wins over an earlier one); a trailing `IČO: <digits>`
fragment and leading non-word characters are stripped, and the result is
accepted only with length strictly between 3 and 200.  The spec's example
still yields `"Acme s.r.o."`. -/
theorem claim_C8_amended :
    (extract_with_patterns "Odběratel:\nFoo\nBar\nAcme s.r.o.").client =
        "Acme s.r.o." ∧
      (extract_with_patterns "Odběratel:\nAcme s.r.o.\nY\nBeta a.s.").client =
        "Beta a.s." ∧
      (extract_with_patterns "Client: Foo Bar IČO: 12345").client = "Foo Bar" := by
  refine ⟨by decide, by decide, by decide⟩

/-- C9, counterexample: the claim says the `Počet MJ:` fallback count is
accepted only if strictly between 0 and 1000 — so `"Počet MJ: 5000"`
should leave numberOfMDs empty.  The code applies no range check on this
fallback and returns `"5000"`. -/
theorem claim_C9_counterexample :
    (extract_with_patterns "Počet MJ: 5000").numberOfMDs = "5000" ∧
      ¬(5000 < 1000) ∧ ("5000" : String) ≠ "" := by
  refine ⟨by decide, by decide, by decide⟩

/-- C9, amended: when no `MD <count> <rate>` line item produced a value,
the standalone labels are used as fallback — `Počet MJ:` sets numberOfMDs
with no range validation at all, while `Cena MJ:` sets mdRate only if the
normalized rate lies strictly between 100 and 100000. -/
theorem claim_C9_amended :
    (extract_with_patterns "Počet MJ: 5000").numberOfMDs = "5000" ∧
      (extract_with_patterns "Počet MJ: 7").numberOfMDs = "7" ∧
      (extract_with_patterns "Cena MJ: 50,00").mdRate = "" ∧
      (extract_with_patterns "Cena MJ: 15 000,00").mdRate = "15000.00" := by
  refine ⟨by decide, by decide, by decide, by decide⟩

/-- C10: for every input text the extracted projectName is non-empty —
when no label pattern produced one it is set to the invoiceNumber if that
is non-empty, and otherwise to the literal `"Imported Invoice"`. -/
theorem claim_C10 (s : String) : (extract_with_patterns s).projectName ≠ "" := by
  rw [extract_projectName_def]
  by_cases h1 : extractProjectName s.toList = ""
  · rw [if_pos h1]
    by_cases h2 : extractInvoiceNumber s.toList = ""
    · rw [if_pos h2]; decide
    · rw [if_neg h2]; exact h2
  · rw [if_neg h1]; exact h1

end Klaus
